import Mathlib

/-!
Verification of the magnetm3u8 distributed media pipeline against its
natural-language specification.  The Go sources are shallowly embedded:
pure computations become Lean functions, the stateful handlers become
explicit state-passing functions, machine integers become `Int`/`Nat`
(Go's truncated 64-bit division is `Int.tdiv`; the values involved stay
far below 2^63, where the two agree), and wall-clock instants become
exact rationals.
-/

namespace MagnetM3u8

/-- Task statuses of the worker pipeline (src/unnamed/part_011 lines 24-31,
src/worker/downloader/manager.go lines 19-27). -/
inductive TaskStatus
  | pending
  | downloading
  | completed
  | transcoding
  | ready
  | error
  | paused
deriving DecidableEq, Repr

/-- A persisted task record, restricted to the fields the admission and
recovery paths read and write (src/worker/database/database.go, models.Task). -/
structure TaskRec where
  taskID : String
  magnetURL : String
  status : TaskStatus
  workerID : String
deriving DecidableEq, Repr

/-- `m.maxTasks`, hard-coded to 5 in `downloader.New`
(src/unnamed/part_006 line 86, src/worker/downloader/manager.go line 49). -/
def maxTasks : Nat := 5

/-- `TaskRepository.GetActiveTasksCount` (src/worker/database/database.go
lines 586-595): count of the worker's tasks whose status is pending,
downloading or transcoding. -/
def getActiveTasksCount (store : List TaskRec) (workerID : String) : Nat :=
  (store.filter (fun t =>
    t.workerID == workerID &&
      (t.status == TaskStatus.pending || t.status == TaskStatus.downloading ||
        t.status == TaskStatus.transcoding))).length

/-- The error returned by `StartDownload` when the admission cap is hit:
`fmt.Errorf("maximum active downloads reached (%d)", m.maxTasks)`
(src/unnamed/part_006 line 145). -/
inductive StartDownloadError
  | limitReached (max : Nat)
deriving DecidableEq, Repr

/-- `Manager.StartDownload` (src/unnamed/part_006 lines 134-174, identical in
src/worker/downloader/manager.go lines 97-137): count the worker's active
tasks, reject with the limit error when `activeCount >= m.maxTasks`, otherwise
insert a fresh `pending` record and return its id.  The repository's own I/O
errors are not modelled; `generateTaskID` is passed in as `newTaskID`.
Returns (result, task store after the call). -/
def startDownload (store : List TaskRec) (workerID magnetURL newTaskID : String) :
    Except StartDownloadError String × List TaskRec :=
  let activeCount := getActiveTasksCount store workerID
  if maxTasks ≤ activeCount then
    (Except.error (StartDownloadError.limitReached maxTasks), store)
  else
    (Except.ok newTaskID,
      store ++ [{ taskID := newTaskID, magnetURL := magnetURL,
                  status := TaskStatus.pending, workerID := workerID }])

/-- `Manager.restoreActiveTasks` (src/unnamed/part_006 lines 403-416,
identical in src/worker/downloader/manager.go lines 357-370): read the tasks
whose persisted status is `downloading` via `GetByStatus` and spawn
`downloadTask` for each of them.  The function performs no writes of its own,
so the store passes through unchanged.  Returns (tasks handed to download
goroutines, task store after the restore pass). -/
def restoreActiveTasks (store : List TaskRec) : List TaskRec × List TaskRec :=
  (store.filter (fun t => t.status == TaskStatus.downloading), store)

/-- Status of the task named `id` in a store (first record wins, as a
keyed table has at most one). -/
def statusOf (store : List TaskRec) (id : String) : Option TaskStatus :=
  (store.find? (fun t => t.taskID == id)).map TaskRec.status

/-! The download work unit `downloadTask` (src/unnamed/part_006
lines 246-401).  The torrent engine, the clock and the repository re-reads
are inputs; the outputs are the writes persisted through the repository. -/

/-- What one iteration of the 2-second progress loop observes
(src/unnamed/part_006 lines 340-353): the status re-read from the
repository, `t.BytesCompleted()`, and the wall-clock instant of the tick. -/
structure TickObs where
  statusRead : TaskStatus
  bytes : Int
  time : ℚ
deriving DecidableEq, Repr

/-- A write persisted by `downloadTask` through the task repository:
a status transition (`Update` after setting `task.Status`), the metadata
arrival update (`Update` after setting size/name/files, status field still
`downloading`), or an `UpdateProgress(progress, speed, downloaded)` row. -/
inductive TaskWrite
  | status (s : TaskStatus)
  | info (size : Int)
  | progress (progress : Int) (speed : Int) (downloaded : Int)
deriving DecidableEq, Repr

/-- The speed statement block of the progress loop (src/unnamed/part_006
lines 359-365):

    elapsedTime := currentTime.Sub(lastTime).Seconds()
    var speed int64
    if elapsedTime > 0 {
        speed = (downloaded - lastDownloaded) / int64(elapsedTime)
    }

`int64(elapsedTime)` truncates the float toward zero; on the positive branch
that is the floor.  `none` models the runtime fault (integer divide by zero)
raised when that truncation is 0; it is caught by the deferred recover of
`downloadTask` (lines 247-257). -/
def tickSpeed (downloaded lastDownloaded : Int) (elapsed : ℚ) : Option Int :=
  if 0 < elapsed then
    if ⌊elapsed⌋ = 0 then none
    else some ((downloaded - lastDownloaded).tdiv ⌊elapsed⌋)
  else some 0

/-- The progress computation of the loop (src/unnamed/part_006
lines 354-357): `progress = int((downloaded * 100) / task.Size)` under the
guard `task.Size > 0`, else 0.  Go's int64 division truncates toward zero. -/
def progressCode (size downloaded : Int) : Int :=
  if 0 < size then (downloaded * 100).tdiv size else 0

/-- The progress-monitoring loop of `downloadTask` (src/unnamed/part_006
lines 332-400), one recursion step per delivered tick.  State threaded
through the loop: `lastDownloaded` (initially 0) and `lastTime` (initially
the instant the loop is entered).  A status re-read that is no longer
`downloading` exits with no write (a failed re-read exits the same way);
a divide-by-zero fault is recovered into a persisted `error` status;
otherwise an `UpdateProgress` row is written and, at `progress >= 100`,
a final `completed` status. -/
def runTicks (size : Int) : List TickObs → Int → ℚ → List TaskWrite
  | [], _, _ => []
  | obs :: rest, lastDownloaded, lastTime =>
    if obs.statusRead ≠ TaskStatus.downloading then []
    else
      let downloaded := obs.bytes
      let progress := progressCode size downloaded
      let elapsed : ℚ := obs.time - lastTime
      match tickSpeed downloaded lastDownloaded elapsed with
      | none => [TaskWrite.status TaskStatus.error]
      | some speed =>
        TaskWrite.progress progress speed downloaded ::
          (if 100 ≤ progress then [TaskWrite.status TaskStatus.completed]
           else runTicks size rest downloaded obs.time)

/-- The inputs `downloadTask` receives from the torrent engine and the
clock: whether `AddMagnet` succeeded, the instant `<-t.GotInfo()` unblocks
(`none` when metadata never arrives, in which case the receive blocks
forever), `t.Length()` at metadata arrival, the instant the progress loop
is entered (initial `lastTime`), and the per-tick observations. -/
structure DownloadEnv where
  addMagnetOk : Bool
  gotInfo : Option ℚ
  size : Int
  loopStart : ℚ
  ticks : List TickObs
deriving DecidableEq, Repr

/-- `downloadTask` (src/unnamed/part_006 lines 246-401) as the sequence of
writes it persists: an `AddMagnet` failure persists `error` (lines 262-272);
otherwise `downloading` is persisted (lines 298-302) and the goroutine blocks
on `<-t.GotInfo()` (line 305) - with no timeout branch, so when metadata
never arrives nothing further is written; on arrival the size/name/files
update is persisted (lines 307-324) and the progress loop runs. -/
def downloadTaskWrites (env : DownloadEnv) : List TaskWrite :=
  if env.addMagnetOk = false then [TaskWrite.status TaskStatus.error]
  else
    TaskWrite.status TaskStatus.downloading ::
      match env.gotInfo with
      | none => []
      | some _ => TaskWrite.info env.size :: runTicks env.size env.ticks 0 env.loopStart

/-- The byte count the loop's state holds when tick `k` is processed: the
previous tick's `bytes`, or the initial value `ld` (0 in `downloadTask`,
`var lastDownloaded int64`) for the first tick. -/
def prevBytesAux (ld : Int) (ticks : List TickObs) : Nat → Int
  | 0 => ld
  | j + 1 => ((ticks.get? j).map TickObs.bytes).getD 0

/-- The instant the loop's state holds when tick `k` is processed: the
previous tick's `time`, or the initial value `lt` (the loop-entry instant)
for the first tick. -/
def prevTimeAux (lt : ℚ) (ticks : List TickObs) : Nat → ℚ
  | 0 => lt
  | j + 1 => ((ticks.get? j).map TickObs.time).getD 0

/-- The speed formula exactly as the specification's claim words it:
`max(0, (downloaded_now - downloaded_prev) / Δt_seconds)`, over the
rationals. -/
def speedClaimSpec (downloadedNow downloadedPrev : Int) (dt : ℚ) : ℚ :=
  max 0 ((((downloadedNow - downloadedPrev : Int) : ℚ)) / dt)

/-- The speed formula as the code actually computes it on non-faulting
ticks: integer (Go-truncated) division of the byte delta by the elapsed
time truncated to whole seconds when the guard `Δt > 0` holds, 0
otherwise. -/
def speedAmendedSpec (downloadedNow downloadedPrev : Int) (dt : ℚ) : Int :=
  if 0 < dt then (downloadedNow - downloadedPrev).tdiv ⌊dt⌋ else 0

/-- Decidable no-short-gap condition on a run of ticks: each tick's elapsed
time since the previous instant is either non-positive (speed guard off) or
at least one second (truncated divisor nonzero). -/
def noShortGaps (lt : ℚ) : List TickObs → Bool
  | [] => true
  | obs :: rest =>
    (decide (obs.time - lt ≤ 0) || decide (1 ≤ obs.time - lt)) && noShortGaps obs.time rest

/-! The gateway's tasks-list broadcast (src/unnamed/part_004).  The
controller registers a pending request with an expected responder count,
fans `get_tasks` out, and waits on a buffered channel against a
`time.After(10 * time.Second)` timer; `handleTasksResponse` accumulates
worker responses and fires the channel when the count reaches the
expectation. -/

/-- One `tasks_response` frame for the pending request, at its arrival
instant (seconds since the fan-out), carrying that worker's task list
(task ids stand in for the task objects). -/
structure TasksArrival where
  time : ℚ
  tasks : List String
deriving DecidableEq, Repr

/-- The gateway's reply to `GET /api/tasks` (src/unnamed/part_004
lines 575-593): HTTP 200 with the merged task list, or HTTP 408
`{"success": false, "error": "Request timeout while waiting for worker
responses"}` carrying no tasks. -/
inductive GatewayResp
  | ok (tasks : List String)
  | requestTimeout
deriving DecidableEq, Repr

/-- `handleTasksResponse` accumulation (src/unnamed/part_004 lines 837-897):
responses append in arrival order; when the count reaches the expectation the
accumulated task lists are flattened, sent on the channel, and the request is
deleted (so later arrivals are dropped).  Returns the completion instant and
the merged list, or `none` when the expectation is never reached. -/
def collectResponses (expected : Nat) :
    List TasksArrival → List (List String) → Option (ℚ × List String)
  | [], _ => none
  | a :: rest, acc =>
    let acc' := acc ++ [a.tasks]
    if expected ≤ acc'.length then some (a.time, acc'.flatten)
    else collectResponses expected rest acc'

/-- `GetAllTasks` (src/unnamed/part_004 lines 503-594): with no successful
send the reply is an immediate empty 200; otherwise the handler waits on the
response channel against a 10-second timer, so a completion strictly before
10 s yields the merged list and anything else yields the 408 reply.
`expected` is the successful-send count (`ExpectedNodes` after the update at
lines 568-572); `arrivals` are this request's `tasks_response` frames in
arrival order. -/
def getAllTasksResult (expected : Nat) (arrivals : List TasksArrival) : GatewayResp :=
  if expected = 0 then GatewayResp.ok []
  else
    match collectResponses expected arrivals [] with
    | some (t, merged) =>
      if t < 10 then GatewayResp.ok merged else GatewayResp.requestTimeout
    | none => GatewayResp.requestTimeout

/-! Worker disconnect handling on the gateway (src/unnamed/part_004
lines 672-686) and the registry it touches (src/gateway/manager.go). -/

/-- A worker record of the gateway registry (src/gateway/manager.go
lines 9-18), restricted to the fields the disconnect path can affect. -/
structure RegNode where
  id : String
  status : String
deriving DecidableEq, Repr

/-- The connection hub and registry state the node-WebSocket handler
mutates: `gc.nodeConns` keys and `gc.gateway.nodes` records. -/
structure GatewayConnState where
  nodeConns : List String
  nodes : List RegNode
deriving DecidableEq, Repr

/-- The cleanup run when a worker's WebSocket read loop ends
(src/unnamed/part_004 lines 683-685): `delete(gc.nodeConns, nodeInfo.ID)`
followed by `gc.gateway.RemoveNode(nodeInfo.ID)`, where `RemoveNode`
(src/gateway/manager.go lines 96-101) deletes the registry record. -/
def onWorkerDisconnect (st : GatewayConnState) (nodeID : String) : GatewayConnState :=
  { nodeConns := st.nodeConns.filter (fun c => c != nodeID)
    nodes := st.nodes.filter (fun n => n.id != nodeID) }

/-! The worker's WebRTC manager (the implementation embedded in
src/worker/webrtc/manager_test.go after the test file, lines 27-541 of that
file; line references below are within that embedded implementation). -/

/-- Which step of the offer flow fails, if any: `NewPeerConnection`
(line 122), `SetRemoteDescription` (line 186), `CreateAnswer` (line 193)
or `SetLocalDescription` (line 201). -/
inductive OfferStep
  | ok
  | failNewPeer
  | failSetRemote
  | failCreateAnswer
  | failSetLocal
deriving DecidableEq, Repr

/-- The manager state `handleOffer` mutates, with peer-connection handles
numbered in creation order: `sessions` is the session map (session id to
the handle stored for it), `created` records every `(sessionID, handle)`
pair a `HandleOffer` call produced, `closed` the handles whose `Close()`
was called, and `nextConn` the next fresh handle. -/
structure WebrtcState where
  sessions : List (String × Nat)
  created : List (String × Nat)
  closed : List Nat
  nextConn : Nat
deriving DecidableEq, Repr

/-- `Manager.HandleOffer` (embedded implementation lines 115-209): create a
fresh `PeerConnection`, store the session under `sessionID`
(`m.sessions[sessionID] = session`, line 134 - overwriting any existing
entry; no `Close` is issued on a previously stored connection); on a failure
of set-remote/create-answer/set-local the NEW connection is closed and the
entry deleted (lines 186-205).  Returns (state after the call, the new
handle on success). -/
def handleOffer (st : WebrtcState) (sessionID : String) (step : OfferStep) :
    WebrtcState × Option Nat :=
  match step with
  | OfferStep.failNewPeer => (st, none)
  | _ =>
    let conn := st.nextConn
    let stIns : WebrtcState :=
      { sessions := (sessionID, conn) :: st.sessions.filter (fun p => p.1 != sessionID)
        created := (sessionID, conn) :: st.created
        closed := st.closed
        nextConn := conn + 1 }
    match step with
    | OfferStep.ok => (stIns, some conn)
    | _ =>
      ({ stIns with
          sessions := stIns.sessions.filter (fun p => p.1 != sessionID)
          closed := conn :: stIns.closed }, none)

/-- The peer-connection handles created for a session id on which `Close()`
has not been called. -/
def livePeerConnsFor (st : WebrtcState) (sid : String) : List Nat :=
  ((st.created.filter (fun p => p.1 == sid && !(st.closed.contains p.2))).map Prod.snd)

/-! Standard base64 (RFC 4648, the `encoding/base64` `StdEncoding` the file
server uses at embedded-implementation line 496).  Bytes are naturals below
256; `a / 4 = a >> 2`, `a % 4 * 16 = (a & 3) << 4`, and so on. -/

/-- The standard base64 alphabet, values 0..63. -/
def b64Alphabet : List Char :=
  "ABCDEFGHIJKLMNOPQRSTUVWXYZabcdefghijklmnopqrstuvwxyz0123456789+/".toList

/-- The alphabet character for a 6-bit value. -/
def b64Char (v : Nat) : Char := b64Alphabet.getD v '='

/-- The 6-bit value of an alphabet character. -/
def b64CharVal (c : Char) : Nat := b64Alphabet.indexOf c

/-- `base64.StdEncoding.EncodeToString`: groups of three bytes become four
alphabet characters; a final group of one or two bytes is padded with
`=`. -/
def b64Encode : List Nat → List Char
  | [] => []
  | [a] => [b64Char (a / 4), b64Char (a % 4 * 16), '=', '=']
  | [a, b] => [b64Char (a / 4), b64Char (a % 4 * 16 + b / 16), b64Char (b % 16 * 4), '=']
  | a :: b :: c :: rest =>
    b64Char (a / 4) :: b64Char (a % 4 * 16 + b / 16) ::
      b64Char (b % 16 * 4 + c / 64) :: b64Char (c % 64) :: b64Encode rest

/-- Decoding of one four-character group, with `=` padding cutting the
group to one or two bytes. -/
def b64DecodeGroup (c0 c1 c2 c3 : Char) : List Nat :=
  let v0 := b64CharVal c0
  let v1 := b64CharVal c1
  if c2 = '=' then [v0 * 4 + v1 / 16]
  else
    let v2 := b64CharVal c2
    if c3 = '=' then [v0 * 4 + v1 / 16, v1 % 16 * 16 + v2 / 4]
    else [v0 * 4 + v1 / 16, v1 % 16 * 16 + v2 / 4, v2 % 4 * 64 + b64CharVal c3]

/-- `base64.StdEncoding.DecodeString` on well-formed input: four characters
at a time. -/
def b64Decode : List Char → List Nat
  | c0 :: c1 :: c2 :: c3 :: rest => b64DecodeGroup c0 c1 c2 c3 ++ b64Decode rest
  | _ => []

/-! The data-channel file server (embedded implementation lines 351-539). -/

/-- Whether a list of characters ends with a suffix
(`strings.HasSuffix`). -/
def endsWithL (s suffix : List Char) : Bool :=
  suffix.isSuffixOf s

/-- `ServerChunkSize = 16 * 1024` (embedded implementation line 369). -/
def ServerChunkSize : Nat := 16 * 1024

/-- The Go slice `data[start:end]` with `start = i*ServerChunkSize` and
`end = min(start+ServerChunkSize, len(data))` (embedded implementation
lines 487-493). -/
def chunkAt (data : List Nat) (i : Nat) : List Nat :=
  (data.drop (i * ServerChunkSize)).take ServerChunkSize

/-- A frame sent on the data channel: a `hijackRespText` or `hijackRespData`
chunk (`FileResponse`, embedded implementation lines 359-366) or a
`hijackError` object (lines 523-539). -/
inductive DCFrame
  | respText (id : String) (sliceNum totalSliceNum totalLength : Nat) (payload : List Char)
  | respData (id : String) (sliceNum totalSliceNum totalLength : Nat) (payload : List Char)
  | errorFrame (id : String) (msg : String)
deriving DecidableEq, Repr

/-- The `sliceNum` field of a chunk frame. -/
def DCFrame.sliceNum : DCFrame → Nat
  | DCFrame.respText _ s _ _ _ => s
  | DCFrame.respData _ s _ _ _ => s
  | DCFrame.errorFrame _ _ => 0

/-- The `totalSliceNum` field of a chunk frame. -/
def DCFrame.totalSliceNum : DCFrame → Nat
  | DCFrame.respText _ _ t _ _ => t
  | DCFrame.respData _ _ t _ _ => t
  | DCFrame.errorFrame _ _ => 0

/-- The `totalLength` field of a chunk frame. -/
def DCFrame.totalLength : DCFrame → Nat
  | DCFrame.respText _ _ _ n _ => n
  | DCFrame.respData _ _ _ n _ => n
  | DCFrame.errorFrame _ _ => 0

/-- The `payload` field of a chunk frame. -/
def DCFrame.payload : DCFrame → List Char
  | DCFrame.respText _ _ _ _ p => p
  | DCFrame.respData _ _ _ _ p => p
  | DCFrame.errorFrame _ _ => []

/-- `Manager.sendFileData` (embedded implementation lines 473-520): compute
`totalSlices = (totalLength + ServerChunkSize - 1) / ServerChunkSize`,
choose `hijackRespText` for `.m3u8`/`.vtt` names and `hijackRespData`
otherwise, and send one frame per slice in ascending order, each carrying
the base64 of its chunk. -/
def sendFileData (requestID : String) (data : List Nat) (fileName : String) :
    List DCFrame :=
  let totalLength := data.length
  let totalSlices := (totalLength + ServerChunkSize - 1) / ServerChunkSize
  let isText := endsWithL fileName.toList (".m3u8".toList) || endsWithL fileName.toList (".vtt".toList)
  (List.range totalSlices).map fun i =>
    if isText then
      DCFrame.respText requestID i totalSlices totalLength (b64Encode (chunkAt data i))
    else
      DCFrame.respData requestID i totalSlices totalLength (b64Encode (chunkAt data i))

/-- The fields of an inbound file request after `json.Unmarshal`
(`FileRequest`, embedded implementation lines 352-356). -/
structure FileRequest where
  type : String
  ts : String
  id : String
deriving DecidableEq, Repr

/-- The worker filesystem as the file server reads it: whether
`os.ReadDir("data/m3u8")` succeeds, and the playlist directories in
directory-listing order, each a named directory of named files (bytes as
naturals below 256). -/
structure WorkerFS where
  m3u8DirOk : Bool
  dirs : List (String × List (String × List Nat))
deriving DecidableEq, Repr

/-- `os.Stat`/`os.ReadFile` of `data/m3u8/<dir>/<file>` against the modelled
filesystem. -/
def fileLookup (fs : WorkerFS) (dir file : String) : Option (List Nat) :=
  (fs.dirs.lookup dir).bind (fun files => files.lookup file)

/-- Split a character list at its first `://` occurrence (the scheme
separator `url.Parse` keys on). -/
def schemeSplit : List Char → Option (List Char × List Char)
  | [] => none
  | ':' :: '/' :: '/' :: rest => some ([], rest)
  | c :: rest => (schemeSplit rest).map (fun p => (c :: p.1, p.2))

/-- Models `url.Parse` as the handler uses it (embedded implementation
lines 389-394): when `ts` has the shape `scheme://host/rest` with a
nonempty slash-free scheme and a nonempty host, the URL path (everything
from the first slash after the host) is used; otherwise `ts` itself is the
path. -/
def extractUrlPath (ts : List Char) : List Char :=
  match schemeSplit ts with
  | some (scheme, rest) =>
    if scheme.length != 0 && !(scheme.contains '/') then
      let host := rest.takeWhile (fun c => c ≠ '/')
      if host.length != 0 then rest.drop host.length else ts
    else ts
  | none => ts

/-- `strings.TrimPrefix(s, p)`. -/
def trimPrefixL (s p : List Char) : List Char :=
  if p.isPrefixOf s then s.drop p.length else s

/-- The path-splitting steps of `handleFileRequest` (embedded implementation
lines 388-400): extract the URL path, strip a leading `/video/`, split on
`/`. -/
def pathParts (ts : String) : List String :=
  ((trimPrefixL (extractUrlPath ts.toList) ("/video/".toList)).splitOn '/').map List.asString

/-- Method 1 of the path resolution (embedded implementation lines 413-424):
`actualPath` is only assigned for `.m3u8`/`.ts`/`.vtt` file names, so for any
other name it stays `""` and `os.Stat` fails; for an assigned path the direct
`data/m3u8/<taskID>/<fileName>` lookup decides. -/
def directLookup (fs : WorkerFS) (taskID fileName : String) : Option (List Nat) :=
  if endsWithL fileName.toList (".m3u8".toList) || endsWithL fileName.toList (".ts".toList) ||
      endsWithL fileName.toList (".vtt".toList) then
    fileLookup fs taskID fileName
  else none

/-- Method 2 of the path resolution (embedded implementation lines 427-448):
walk the `data/m3u8` directory entries in order and use the first directory
containing `fileName`. -/
def searchDirs : List (String × List (String × List Nat)) → String → Option (List Nat)
  | [], _ => none
  | (_, files) :: rest, fileName =>
    match files.lookup fileName with
    | some d => some d
    | none => searchDirs rest fileName

/-- `Manager.handleFileRequest` (embedded implementation lines 373-470) as
the frames it produces on the data channel; `[]` is the silent no-frame
outcome (non-`hijackReq` types; a JSON parse failure, not modelled here,
returns the same way).  There is no rejection of `..` path components
anywhere in the function: the path flows straight into splitting and
resolution. -/
def handleFileRequest (fs : WorkerFS) (req : FileRequest) : List DCFrame :=
  if req.type != "hijackReq" then []
  else if (pathParts req.ts).length < 2 then [DCFrame.errorFrame req.id "Invalid file path"]
  else
    match directLookup fs ((pathParts req.ts).getD 0 "") ((pathParts req.ts).getD 1 "") with
    | some data => sendFileData req.id data ((pathParts req.ts).getD 1 "")
    | none =>
      if fs.m3u8DirOk = false then
        [DCFrame.errorFrame req.id "M3U8 directory not accessible"]
      else
        match searchDirs fs.dirs ((pathParts req.ts).getD 1 "") with
        | some data => sendFileData req.id data ((pathParts req.ts).getD 1 "")
        | none => [DCFrame.errorFrame req.id "File not found"]

/-! Helper lemmas. -/

/-- Alphabet characters are never the padding character. -/
theorem b64Char_ne_pad : ∀ v : Nat, v < 64 → b64Char v ≠ '=' := by decide

/-- Decoding inverts the alphabet on 6-bit values. -/
theorem b64CharVal_b64Char : ∀ v : Nat, v < 64 → b64CharVal (b64Char v) = v := by decide

/-- `b64Decode` inverts `b64Encode` on byte lists. -/
theorem b64_roundtrip :
    ∀ (fuel : Nat) (l : List Nat), l.length ≤ fuel → (∀ b ∈ l, b < 256) →
      b64Decode (b64Encode l) = l := by
  intro fuel
  induction fuel with
  | zero =>
    intro l hl _
    have : l = [] := List.eq_nil_of_length_eq_zero (Nat.le_zero.mp hl)
    subst this
    rfl
  | succ n ih =>
    intro l hl hb
    match l with
    | [] => rfl
    | [a] =>
      have ha : a < 256 := hb a (by simp)
      have h1 : a / 4 < 64 := by omega
      have h2 : a % 4 * 16 < 64 := by omega
      simp [b64Encode, b64Decode, b64DecodeGroup,
        b64CharVal_b64Char _ h1, b64CharVal_b64Char _ h2]
      omega
    | [a, b] =>
      have ha : a < 256 := hb a (by simp)
      have hbb : b < 256 := hb b (by simp)
      have h1 : a / 4 < 64 := by omega
      have h2 : a % 4 * 16 + b / 16 < 64 := by omega
      have h3 : b % 16 * 4 < 64 := by omega
      simp [b64Encode, b64Decode, b64DecodeGroup, b64Char_ne_pad _ h3,
        b64CharVal_b64Char _ h1, b64CharVal_b64Char _ h2, b64CharVal_b64Char _ h3]
      omega
    | a :: b :: c :: rest =>
      have ha : a < 256 := hb a (by simp)
      have hbb : b < 256 := hb b (by simp)
      have hc : c < 256 := hb c (by simp)
      have h1 : a / 4 < 64 := by omega
      have h2 : a % 4 * 16 + b / 16 < 64 := by omega
      have h3 : b % 16 * 4 + c / 64 < 64 := by omega
      have h4 : c % 64 < 64 := by omega
      have hrest : b64Decode (b64Encode rest) = rest := by
        refine ih rest ?_ ?_
        · have := hl
          simp only [List.length_cons] at this ⊢
          omega
        · intro x hx
          exact hb x (by simp [hx])
      simp [b64Encode, b64Decode, b64DecodeGroup, b64Char_ne_pad _ h3, b64Char_ne_pad _ h4,
        hrest, b64CharVal_b64Char _ h1, b64CharVal_b64Char _ h2, b64CharVal_b64Char _ h3,
        b64CharVal_b64Char _ h4]
      omega

/-- Shifting the chunk index by one is chunking the tail past one chunk. -/
theorem chunkAt_succ (data : List Nat) (i : Nat) :
    chunkAt data (i + 1) = chunkAt (data.drop ServerChunkSize) i := by
  unfold chunkAt
  rw [List.drop_drop]
  have h : ServerChunkSize + i * ServerChunkSize = (i + 1) * ServerChunkSize := by ring
  rw [h]

/-- Concatenating the `ceil(n / chunkSize)` chunks of a list restores it. -/
theorem flatten_chunks :
    ∀ (fuel : Nat) (data : List Nat), data.length ≤ fuel →
      ((List.range ((data.length + ServerChunkSize - 1) / ServerChunkSize)).map
        (chunkAt data)).flatten = data := by
  intro fuel
  induction fuel with
  | zero =>
    intro data hl
    have : data = [] := List.eq_nil_of_length_eq_zero (Nat.le_zero.mp hl)
    subst this
    rfl
  | succ m ih =>
    intro data hl
    by_cases hz : data.length = 0
    · have : data = [] := List.eq_nil_of_length_eq_zero hz
      subst this
      rfl
    · by_cases hsmall : data.length ≤ ServerChunkSize
      · have hts : (data.length + ServerChunkSize - 1) / ServerChunkSize = 1 := by
          rw [show ServerChunkSize = 16384 from rfl] at hsmall ⊢
          omega
        rw [hts]
        simp [show List.range 1 = [0] from rfl, chunkAt, List.take_of_length_le hsmall]
      · have hts : (data.length + ServerChunkSize - 1) / ServerChunkSize =
            ((data.drop ServerChunkSize).length + ServerChunkSize - 1) / ServerChunkSize + 1 := by
          rw [List.length_drop, show ServerChunkSize = 16384 from rfl]
          rw [show ServerChunkSize = 16384 from rfl] at hsmall
          omega
        rw [hts, List.range_succ_eq_map]
        simp only [List.map_cons, List.flatten_cons, List.map_map]
        have hmap : (List.range (((data.drop ServerChunkSize).length + ServerChunkSize - 1) /
              ServerChunkSize)).map (chunkAt data ∘ Nat.succ) =
            (List.range (((data.drop ServerChunkSize).length + ServerChunkSize - 1) /
              ServerChunkSize)).map (chunkAt (data.drop ServerChunkSize)) := by
          refine List.map_congr_left ?_
          intro i _
          exact chunkAt_succ data i
        rw [hmap, ih (data.drop ServerChunkSize)
          (by
            rw [List.length_drop, show ServerChunkSize = 16384 from rfl]
            rw [show ServerChunkSize = 16384 from rfl] at hsmall
            omega)]
        simp [chunkAt]

/-- On a tick whose elapsed time is non-positive or at least one second the
speed statement does not fault and computes the amended formula. -/
theorem tickSpeed_eq_amended (d ld : Int) (e : ℚ) (h : e ≤ 0 ∨ 1 ≤ e) :
    tickSpeed d ld e = some (speedAmendedSpec d ld e) := by
  rcases h with h | h
  · have h0 : ¬ 0 < e := not_lt.mpr h
    simp [tickSpeed, speedAmendedSpec, h0]
  · have h0 : 0 < e := lt_of_lt_of_le one_pos h
    have hf : (1 : Int) ≤ ⌊e⌋ := Int.le_floor.mpr (by exact_mod_cast h)
    simp [tickSpeed, speedAmendedSpec, h0, show ⌊e⌋ ≠ 0 by omega]

/-- The loop's previous-byte state one tick in. -/
theorem prevBytesAux_cons (ld : Int) (obs : TickObs) (rest : List TickObs) (j : Nat) :
    prevBytesAux ld (obs :: rest) (j + 1) = prevBytesAux obs.bytes rest j := by
  cases j with
  | zero => rfl
  | succ m => rfl

/-- The loop's previous-instant state one tick in. -/
theorem prevTimeAux_cons (lt : ℚ) (obs : TickObs) (rest : List TickObs) (j : Nat) :
    prevTimeAux lt (obs :: rest) (j + 1) = prevTimeAux obs.time rest j := by
  cases j with
  | zero => rfl
  | succ m => rfl

/-- The `k`-th write of a live run of the progress loop is the
`UpdateProgress` row of the `k`-th tick, with the speed given by the
amended formula over the previous sample held in the loop state. -/
theorem runTicks_get_progress (size : Int) :
    ∀ (ticks : List TickObs) (ld : Int) (lt : ℚ) (k : Nat) (obsk : TickObs),
      ticks.get? k = some obsk →
      (ticks.take (k + 1)).all (fun o => o.statusRead == TaskStatus.downloading) = true →
      (ticks.take k).all (fun o => decide (progressCode size o.bytes < 100)) = true →
      noShortGaps lt (ticks.take (k + 1)) = true →
      (runTicks size ticks ld lt).get? k =
        some (TaskWrite.progress (progressCode size obsk.bytes)
          (speedAmendedSpec obsk.bytes (prevBytesAux ld ticks k)
            (obsk.time - prevTimeAux lt ticks k))
          obsk.bytes) := by
  intro ticks
  induction ticks with
  | nil =>
    intro ld lt k obsk hget _ _ _
    simp at hget
  | cons obs rest ih =>
    intro ld lt k obsk hget halive hprog hgaps
    have hsr : obs.statusRead = TaskStatus.downloading := by
      have h0 := halive
      rw [List.take_succ_cons, List.all_cons, Bool.and_eq_true] at h0
      exact beq_iff_eq.mp h0.1
    have hgap : obs.time - lt ≤ 0 ∨ 1 ≤ obs.time - lt := by
      have h0 := hgaps
      rw [List.take_succ_cons] at h0
      unfold noShortGaps at h0
      rw [Bool.and_eq_true, Bool.or_eq_true] at h0
      rcases h0.1 with h | h
      · exact Or.inl (of_decide_eq_true h)
      · exact Or.inr (of_decide_eq_true h)
    have hts := tickSpeed_eq_amended obs.bytes ld (obs.time - lt) hgap
    cases k with
    | zero =>
      have hobs : obsk = obs := by
        rw [List.get?_cons_zero] at hget
        exact (Option.some.injEq _ _).mp hget.symm
      subst hobs
      unfold runTicks
      rw [if_neg (by simp [hsr])]
      simp only [hts]
      simp [prevBytesAux, prevTimeAux]
    | succ j =>
      have hget' : rest.get? j = some obsk := by
        rw [List.get?_cons_succ] at hget
        exact hget
      have hprog0 : progressCode size obs.bytes < 100 := by
        have h0 := hprog
        rw [List.take_succ_cons, List.all_cons, Bool.and_eq_true] at h0
        exact of_decide_eq_true h0.1
      have halive' :
          (rest.take (j + 1)).all (fun o => o.statusRead == TaskStatus.downloading) = true := by
        have h0 := halive
        rw [List.take_succ_cons, List.all_cons, Bool.and_eq_true] at h0
        exact h0.2
      have hprog' :
          (rest.take j).all (fun o => decide (progressCode size o.bytes < 100)) = true := by
        have h0 := hprog
        rw [List.take_succ_cons, List.all_cons, Bool.and_eq_true] at h0
        exact h0.2
      have hgaps' : noShortGaps obs.time (rest.take (j + 1)) = true := by
        have h0 := hgaps
        rw [List.take_succ_cons] at h0
        unfold noShortGaps at h0
        rw [Bool.and_eq_true] at h0
        exact h0.2
      unfold runTicks
      rw [if_neg (by simp [hsr])]
      simp only [hts]
      rw [prevBytesAux_cons, prevTimeAux_cons]
      rw [if_neg (not_le.mpr hprog0)]
      simp only [List.get?_cons_succ]
      exact ih obs.bytes obs.time j obsk hget' halive' hprog' hgaps'

/-- `collectResponses` completes exactly at the arrival that brings the
accumulated count up to the expectation, merging the accumulator with the
task lists collected so far. -/
theorem collectResponses_eq (arrivals : List TasksArrival) :
    ∀ (expected : Nat) (acc : List (List String)), acc.length < expected →
      collectResponses expected arrivals acc =
        (arrivals.get? (expected - acc.length - 1)).map
          (fun a => (a.time,
            (acc ++ (arrivals.take (expected - acc.length)).map TasksArrival.tasks).flatten)) := by
  induction arrivals with
  | nil =>
    intro expected acc _
    simp [collectResponses]
  | cons a rest ih =>
    intro expected acc hlt
    unfold collectResponses
    by_cases h : expected ≤ (acc ++ [a.tasks]).length
    · have he : expected = acc.length + 1 := by
        rw [List.length_append, List.length_cons, List.length_nil] at h
        omega
      rw [if_pos h, he]
      have hidx : acc.length + 1 - acc.length - 1 = 0 := by omega
      have htake : acc.length + 1 - acc.length = 1 := by omega
      rw [hidx, htake]
      simp
    · have hlt' : (acc ++ [a.tasks]).length < expected := by
        rw [List.length_append, List.length_cons, List.length_nil]
        rw [List.length_append, List.length_cons, List.length_nil] at h
        omega
      rw [if_neg h, ih expected (acc ++ [a.tasks]) hlt']
      have hlen : (acc ++ [a.tasks]).length = acc.length + 1 := by simp
      rw [hlen]
      have hidx : expected - acc.length - 1 = (expected - (acc.length + 1) - 1) + 1 := by omega
      have htake : expected - acc.length = (expected - (acc.length + 1)) + 1 := by omega
      rw [hidx, htake]
      simp only [List.get?_cons_succ, List.take_succ_cons, List.map_cons]
      congr 1
      funext x
      congr 2
      rw [List.append_assoc]
      rfl

/-! Claim theorems. -/

/-- C7: if `StartDownload` is called while the repository already counts at
least `max_downloads` (5) active tasks for this worker, it returns the limit
error and the task store is unchanged - no task record is created by the
rejected call. -/
theorem startDownload_at_cap_rejected (store : List TaskRec)
    (wid magnet newID : String)
    (h : maxTasks ≤ getActiveTasksCount store wid) :
    startDownload store wid magnet newID =
      (Except.error (StartDownloadError.limitReached maxTasks), store) := by
  unfold startDownload
  simp [h]

/-- Witness for C7 at a store of five active tasks of the worker. -/
theorem startDownload_at_cap_rejected_witness :
    maxTasks ≤ getActiveTasksCount
      [⟨"t1", "m", TaskStatus.pending, "w"⟩, ⟨"t2", "m", TaskStatus.downloading, "w"⟩,
        ⟨"t3", "m", TaskStatus.transcoding, "w"⟩, ⟨"t4", "m", TaskStatus.pending, "w"⟩,
        ⟨"t5", "m", TaskStatus.downloading, "w"⟩] "w" ∧
    startDownload
      [⟨"t1", "m", TaskStatus.pending, "w"⟩, ⟨"t2", "m", TaskStatus.downloading, "w"⟩,
        ⟨"t3", "m", TaskStatus.transcoding, "w"⟩, ⟨"t4", "m", TaskStatus.pending, "w"⟩,
        ⟨"t5", "m", TaskStatus.downloading, "w"⟩] "w" "magnet:?xt=urn:btih:A" "t6" =
      (Except.error (StartDownloadError.limitReached maxTasks),
        [⟨"t1", "m", TaskStatus.pending, "w"⟩, ⟨"t2", "m", TaskStatus.downloading, "w"⟩,
          ⟨"t3", "m", TaskStatus.transcoding, "w"⟩, ⟨"t4", "m", TaskStatus.pending, "w"⟩,
          ⟨"t5", "m", TaskStatus.downloading, "w"⟩]) :=
  ⟨by decide,
    startDownload_at_cap_rejected
      [⟨"t1", "m", TaskStatus.pending, "w"⟩, ⟨"t2", "m", TaskStatus.downloading, "w"⟩,
        ⟨"t3", "m", TaskStatus.transcoding, "w"⟩, ⟨"t4", "m", TaskStatus.pending, "w"⟩,
        ⟨"t5", "m", TaskStatus.downloading, "w"⟩] "w" "magnet:?xt=urn:btih:A" "t6" (by decide)⟩

/-- C8 counterexample: at a store holding one task persisted as
`transcoding`, the startup restore pass leaves it at `transcoding` (it is
not reset to `completed`) and does not reschedule it. -/
theorem restore_transcoding_not_reset :
    statusOf (restoreActiveTasks [⟨"t1", "m", TaskStatus.transcoding, "w1"⟩]).2 "t1" =
      some TaskStatus.transcoding ∧
    some TaskStatus.transcoding ≠ some TaskStatus.completed ∧
    (restoreActiveTasks [⟨"t1", "m", TaskStatus.transcoding, "w1"⟩]).1 = [] := by
  decide

/-- C8 (amended): at worker startup only tasks persisted as `downloading`
are rescheduled through the download work unit; the restore pass writes
nothing, so a task persisted as `transcoding` keeps that status and is not
handed to any work unit. -/
theorem restore_leaves_transcoding_untouched (store : List TaskRec) :
    (restoreActiveTasks store).2 = store ∧
    (restoreActiveTasks store).1 =
      store.filter (fun t => t.status == TaskStatus.downloading) ∧
    ∀ t ∈ store, t.status = TaskStatus.transcoding →
      t ∉ (restoreActiveTasks store).1 := by
  refine ⟨rfl, rfl, ?_⟩
  intro t _ htr hmem
  have hkeep := List.of_mem_filter hmem
  rw [htr] at hkeep
  exact absurd (beq_iff_eq.mp hkeep) (by decide)

/-- C4 counterexample: a connected, registered worker `w1` disconnects; the
handler removes not only the hub entry but also the registry record, so the
registry does not stay unchanged until the sweep. -/
theorem workerDisconnect_registry_changed :
    (onWorkerDisconnect ⟨["w1"], [⟨"w1", "online"⟩]⟩ "w1").nodes = [] ∧
    (onWorkerDisconnect ⟨["w1"], [⟨"w1", "online"⟩]⟩ "w1").nodes ≠ [⟨"w1", "online"⟩] ∧
    (onWorkerDisconnect ⟨["w1"], [⟨"w1", "online"⟩]⟩ "w1").nodeConns = [] := by
  decide

/-- C4 (amended): when a worker's WebSocket closes, the gateway removes that
worker's hub entry and also immediately deletes its registry record via
`RemoveNode`; entries and records of other workers are untouched. -/
theorem workerDisconnect_removes_hub_and_registry (st : GatewayConnState)
    (nodeID : String) :
    nodeID ∉ (onWorkerDisconnect st nodeID).nodeConns ∧
    (∀ c ∈ st.nodeConns, c ≠ nodeID → c ∈ (onWorkerDisconnect st nodeID).nodeConns) ∧
    (∀ n ∈ (onWorkerDisconnect st nodeID).nodes, n.id ≠ nodeID) ∧
    (∀ n ∈ st.nodes, n.id ≠ nodeID → n ∈ (onWorkerDisconnect st nodeID).nodes) := by
  refine ⟨?_, ?_, ?_, ?_⟩
  · intro hmem
    have := List.of_mem_filter hmem
    simp at this
  · intro c hc hne
    exact List.mem_filter.mpr ⟨hc, by simpa using hne⟩
  · intro n hn
    have := List.of_mem_filter hn
    simpa using this
  · intro n hn hne
    exact List.mem_filter.mpr ⟨hn, by simpa using hne⟩

/-- C3 counterexample: two successive successful offers for session `S1`
leave the first peer-connection unclosed - after the second `HandleOffer`
no `Close` has happened and two live peer-connections exist for `S1`. -/
theorem handleOffer_two_offers_two_live_conns :
    ((handleOffer (handleOffer ⟨[], [], [], 0⟩ "S1" OfferStep.ok).1 "S1" OfferStep.ok).1).closed
        = [] ∧
    (livePeerConnsFor
        (handleOffer (handleOffer ⟨[], [], [], 0⟩ "S1" OfferStep.ok).1 "S1" OfferStep.ok).1
        "S1").length = 2 ∧
    ((handleOffer (handleOffer ⟨[], [], [], 0⟩ "S1" OfferStep.ok).1 "S1" OfferStep.ok).1).sessions
        = [("S1", 1)] := by
  decide

/-- C3 (amended): a successful `HandleOffer` for a session id that already
has a stored peer-connection overwrites the session entry with the new
connection but closes nothing: the set of closed handles is unchanged, so
the prior peer-connection stays live. -/
theorem handleOffer_replacement_leaves_prior_open (st : WebrtcState)
    (sid : String) (c : Nat) (_hmem : (sid, c) ∈ st.sessions) :
    (handleOffer st sid OfferStep.ok).1.closed = st.closed ∧
    (sid, st.nextConn) ∈ (handleOffer st sid OfferStep.ok).1.sessions := by
  exact ⟨rfl, List.mem_cons_self _ _⟩

/-- Witness for C3's amended theorem: a state whose session map already
binds `S1` to handle 0. -/
theorem handleOffer_replacement_leaves_prior_open_witness :
    ("S1", 0) ∈ (⟨[("S1", 0)], [("S1", 0)], [], 1⟩ : WebrtcState).sessions ∧
    (handleOffer ⟨[("S1", 0)], [("S1", 0)], [], 1⟩ "S1" OfferStep.ok).1.closed = [] ∧
    ("S1", 1) ∈ (handleOffer ⟨[("S1", 0)], [("S1", 0)], [], 1⟩ "S1" OfferStep.ok).1.sessions :=
  ⟨by decide,
    (handleOffer_replacement_leaves_prior_open ⟨[("S1", 0)], [("S1", 0)], [], 1⟩ "S1" 0
      (by decide)).1,
    (handleOffer_replacement_leaves_prior_open ⟨[("S1", 0)], [("S1", 0)], [], 1⟩ "S1" 0
      (by decide)).2⟩

/-- C6 counterexample: with `AddMagnet` succeeding and metadata never
arriving, the work unit persists only the `downloading` status - however
much time passes (two minutes included), no `error` status is ever
written. -/
theorem downloadTask_no_metadata_timeout_counterexample :
    (⟨true, none, 0, 0, []⟩ : DownloadEnv).gotInfo = none ∧
    downloadTaskWrites ⟨true, none, 0, 0, []⟩ = [TaskWrite.status TaskStatus.downloading] ∧
    TaskWrite.status TaskStatus.error ∉ downloadTaskWrites ⟨true, none, 0, 0, []⟩ := by
  decide

/-- C6 (amended): metadata acquisition has no deadline - when `AddMagnet`
succeeds and metadata never arrives, the work unit blocks on the `GotInfo`
receive forever, having persisted exactly the `downloading` status; in
particular the task never transitions to `error` because of elapsed time. -/
theorem downloadTask_metadata_wait_no_deadline (env : DownloadEnv)
    (hok : env.addMagnetOk = true) (hnone : env.gotInfo = none) :
    downloadTaskWrites env = [TaskWrite.status TaskStatus.downloading] := by
  simp [downloadTaskWrites, hok, hnone]

/-- Witness for C6's amended theorem. -/
theorem downloadTask_metadata_wait_no_deadline_witness :
    downloadTaskWrites ⟨true, none, 0, 0, []⟩ = [TaskWrite.status TaskStatus.downloading] :=
  downloadTask_metadata_wait_no_deadline ⟨true, none, 0, 0, []⟩ rfl rfl

/-- C10: the guard `elapsedTime > 0` does not make the divisor
`int64(elapsedTime)` nonzero: at an elapsed time of half a second the guard
holds yet the divisor truncates to 0 and the division faults (the claim says
this cannot happen); the fault region is exactly `0 < Δt < 1`, while
`1 ≤ Δt` is safe. -/
theorem tickSpeed_guard_divide_by_zero :
    (0 : ℚ) < 1 / 2 ∧ tickSpeed 3 0 (1 / 2) = none ∧
    (∀ e : ℚ, 0 < e → e < 1 → tickSpeed 3 0 e = none) ∧
    (∀ e : ℚ, 1 ≤ e → ∀ d ld : Int, tickSpeed d ld e ≠ none) := by
  have hgen : ∀ e : ℚ, 0 < e → e < 1 → tickSpeed 3 0 e = none := by
    intro e h0 h1
    have hf : ⌊e⌋ = 0 := Int.floor_eq_zero_iff.mpr ⟨le_of_lt h0, h1⟩
    simp [tickSpeed, h0, hf]
  refine ⟨by norm_num, hgen (1 / 2) (by norm_num) (by norm_num), hgen, ?_⟩
  intro e he d ld
  have h0 : (0 : ℚ) < e := lt_of_lt_of_le one_pos he
  have hf : (1 : Int) ≤ ⌊e⌋ := Int.le_floor.mpr (by exact_mod_cast he)
  simp [tickSpeed, h0, show ⌊e⌋ ≠ 0 by omega]

/-- C1 counterexample: a `hijackReq` whose ts is `../secret/x` (containing
`../`) does not fail quietly - on a worker with an empty playlist root the
handler answers with a `hijackError "File not found"` frame, so a frame IS
produced for the request. -/
theorem fileRequest_dotdot_emits_frame :
    ("../".toList <:+: ("../secret/x" : String).toList) ∧
    handleFileRequest ⟨true, []⟩ ⟨"hijackReq", "../secret/x", "Q1"⟩ =
      [DCFrame.errorFrame "Q1" "File not found"] ∧
    handleFileRequest ⟨true, []⟩ ⟨"hijackReq", "../secret/x", "Q1"⟩ ≠ [] := by
  decide

/-- C1 (amended): the worker's file server has no `../`/`..\` rejection: a
`hijackReq` whose ts contains `../` flows through normal path resolution,
and when the named file is found nowhere (the playlist root being readable)
the handler sends a `hijackError "File not found"` frame rather than
nothing. -/
theorem fileRequest_dotdot_not_silent (fs : WorkerFS) (req : FileRequest)
    (htype : req.type = "hijackReq")
    (_hdot : "../".toList <:+: req.ts.toList)
    (hparts : 2 ≤ (pathParts req.ts).length)
    (hdirect : directLookup fs ((pathParts req.ts).getD 0 "")
        ((pathParts req.ts).getD 1 "") = none)
    (hdirok : fs.m3u8DirOk = true)
    (hsearch : searchDirs fs.dirs ((pathParts req.ts).getD 1 "") = none) :
    handleFileRequest fs req = [DCFrame.errorFrame req.id "File not found"] := by
  unfold handleFileRequest
  rw [if_neg (by simp [htype]), if_neg (Nat.not_lt.mpr hparts), hdirect,
    if_neg (by simp [hdirok]), hsearch]

/-- Witness for C1's amended theorem at the concrete traversal request. -/
theorem fileRequest_dotdot_not_silent_witness :
    handleFileRequest ⟨true, []⟩ ⟨"hijackReq", "../secret/x", "Q1"⟩ =
      [DCFrame.errorFrame "Q1" "File not found"] :=
  fileRequest_dotdot_not_silent ⟨true, []⟩ ⟨"hijackReq", "../secret/x", "Q1"⟩ rfl
    (by decide) (by decide) (by decide) rfl (by decide)

/-- C2 counterexample: a single expected responder answering at 15 s (well
inside the claimed 30-second window) yields the 408 timeout reply, and with
two responders expected a partial response collected at 1 s is discarded on
the deadline - the client receives the timeout error, never the partial
list. -/
theorem getAllTasks_thirty_second_partial_counterexample :
    getAllTasksResult 1 [⟨15, ["task_a"]⟩] = GatewayResp.requestTimeout ∧
    getAllTasksResult 2 [⟨1, ["task_a"]⟩] = GatewayResp.requestTimeout ∧
    GatewayResp.requestTimeout ≠ GatewayResp.ok ["task_a"] := by
  decide

/-- C2 (amended): the tasks-list broadcast waits until the collected
responses reach the expected count or a 10-second deadline elapses; a
completion strictly before 10 s returns the flat concatenation of the
collected task lists, and otherwise (deadline hit, or too few responses
ever arriving) the client receives the HTTP 408 error reply carrying no
tasks - accumulated partial responses are discarded, not returned. -/
theorem getAllTasks_deadline_and_timeout_reply (expected : Nat)
    (arrivals : List TasksArrival) (hpos : 0 < expected) :
    (∀ a, arrivals.get? (expected - 1) = some a →
      getAllTasksResult expected arrivals =
        if a.time < 10 then
          GatewayResp.ok (((arrivals.take expected).map TasksArrival.tasks).flatten)
        else GatewayResp.requestTimeout) ∧
    (arrivals.length < expected →
      getAllTasksResult expected arrivals = GatewayResp.requestTimeout) := by
  have hkey := collectResponses_eq arrivals expected [] (by simpa using hpos)
  simp only [List.length_nil, Nat.sub_zero, List.nil_append] at hkey
  constructor
  · intro a ha
    unfold getAllTasksResult
    rw [if_neg (by omega), hkey, ha]
    simp only [Option.map_some']
  · intro hlen
    unfold getAllTasksResult
    rw [if_neg (by omega), hkey]
    have hnone : arrivals.get? (expected - 1) = none := by
      rw [List.get?_eq_none]
      omega
    rw [hnone]
    rfl

/-- Witness for C2's amended theorem: one expected responder answering at
2 s, delivered as a 200 reply with its task list. -/
theorem getAllTasks_deadline_and_timeout_reply_witness :
    getAllTasksResult 1 [⟨2, ["x"]⟩] = GatewayResp.ok ["x"] := by
  have h := (getAllTasks_deadline_and_timeout_reply 1 [⟨2, ["x"]⟩] (by decide)).1 ⟨2, ["x"]⟩ rfl
  rw [if_pos (by norm_num)] at h
  simpa using h

/-- C5 counterexample: a tick with byte delta 3 after an elapsed time of
2 s persists speed `3 tdiv 2 = 1`, while the claim's formula
`max(0, Δbytes / Δt)` evaluates to `3/2` - the persisted speed is the
integer-truncated quotient, not the claimed real quotient. -/
theorem downloadTask_speed_claim_counterexample :
    (downloadTaskWrites ⟨true, some 0, 100, 0, [⟨TaskStatus.downloading, 3, 2⟩]⟩).get? 2 =
      some (TaskWrite.progress 3 1 3) ∧
    speedClaimSpec 3 0 ((2 : ℚ) - 0) = 3 / 2 ∧
    ((1 : ℚ) ≠ 3 / 2) := by
  refine ⟨?_, ?_, by norm_num⟩
  · have h := runTicks_get_progress 100 [⟨TaskStatus.downloading, 3, 2⟩] 0 0 0
      ⟨TaskStatus.downloading, 3, 2⟩ rfl (by decide) rfl
      (by norm_num [noShortGaps])
    have hfloor : ⌊(2 : ℚ) - 0⌋ = 2 := by norm_num
    have hspeed : speedAmendedSpec 3 (prevBytesAux 0 [⟨TaskStatus.downloading, 3, 2⟩] 0)
        ((2 : ℚ) - prevTimeAux 0 [⟨TaskStatus.downloading, 3, 2⟩] 0) = 1 := by
      show speedAmendedSpec 3 0 ((2 : ℚ) - 0) = 1
      unfold speedAmendedSpec
      rw [if_pos (by norm_num), hfloor]
      decide
    have hw : downloadTaskWrites ⟨true, some 0, 100, 0, [⟨TaskStatus.downloading, 3, 2⟩]⟩ =
        TaskWrite.status TaskStatus.downloading :: TaskWrite.info 100 ::
          runTicks 100 [⟨TaskStatus.downloading, 3, 2⟩] 0 0 := by
      unfold downloadTaskWrites
      rw [if_neg (by simp)]
    rw [hw]
    simp only [List.get?_cons_succ]
    rw [h, hspeed]
    rfl
  · unfold speedClaimSpec
    rw [max_eq_right (by norm_num)]
    norm_num

/-- C5 (amended): on every live tick of the progress loop the persisted and
emitted speed is the byte delta since the previous sample divided, with
Go's truncated integer division, by the elapsed time truncated to whole
seconds when the guard `Δt > 0` holds, and 0 when it does not; the first
sample uses 0 for the previous byte count and the loop-entry instant for
the previous time.  (Ticks with `0 < Δt < 1` fault instead; the hypotheses
exclude them.) -/
theorem downloadTask_speed_formula_amended (env : DownloadEnv) (k : Nat)
    (obsk : TickObs)
    (hok : env.addMagnetOk = true) (hinfo : env.gotInfo.isSome = true)
    (hget : env.ticks.get? k = some obsk)
    (halive : (env.ticks.take (k + 1)).all
        (fun o => o.statusRead == TaskStatus.downloading) = true)
    (hprog : (env.ticks.take k).all
        (fun o => decide (progressCode env.size o.bytes < 100)) = true)
    (hgaps : noShortGaps env.loopStart (env.ticks.take (k + 1)) = true) :
    (downloadTaskWrites env).get? (k + 2) =
      some (TaskWrite.progress (progressCode env.size obsk.bytes)
        (speedAmendedSpec obsk.bytes (prevBytesAux 0 env.ticks k)
          (obsk.time - prevTimeAux env.loopStart env.ticks k))
        obsk.bytes) := by
  obtain ⟨t0, ht0⟩ := Option.isSome_iff_exists.mp hinfo
  unfold downloadTaskWrites
  rw [if_neg (by simp [hok]), ht0]
  show (TaskWrite.status TaskStatus.downloading :: TaskWrite.info env.size ::
      runTicks env.size env.ticks 0 env.loopStart).get? (k + 1 + 1) = _
  simp only [List.get?_cons_succ]
  exact runTicks_get_progress env.size env.ticks 0 env.loopStart k obsk hget halive hprog hgaps

/-- Witness for C5's amended theorem: two ticks 2 s apart, the second
persisting speed `(7 - 3) tdiv 2 = 2`. -/
theorem downloadTask_speed_formula_amended_witness :
    (downloadTaskWrites ⟨true, some 0, 100, 0,
        [⟨TaskStatus.downloading, 3, 2⟩, ⟨TaskStatus.downloading, 7, 4⟩]⟩).get? 3 =
      some (TaskWrite.progress 7 2 7) := by
  have h := downloadTask_speed_formula_amended
    ⟨true, some 0, 100, 0, [⟨TaskStatus.downloading, 3, 2⟩, ⟨TaskStatus.downloading, 7, 4⟩]⟩
    1 ⟨TaskStatus.downloading, 7, 4⟩ rfl rfl rfl (by decide) (by decide)
    (by norm_num [noShortGaps])
  have hfloor : ⌊(4 : ℚ) - 2⌋ = 2 := by norm_num
  have hspeed : speedAmendedSpec 7
      (prevBytesAux 0 [⟨TaskStatus.downloading, 3, 2⟩, ⟨TaskStatus.downloading, 7, 4⟩] 1)
      ((4 : ℚ) - prevTimeAux 0
        [⟨TaskStatus.downloading, 3, 2⟩, ⟨TaskStatus.downloading, 7, 4⟩] 1) = 2 := by
    show speedAmendedSpec 7 3 ((4 : ℚ) - 2) = 2
    unfold speedAmendedSpec
    rw [if_pos (by norm_num), hfloor]
    decide
  rw [h, hspeed]
  rfl

/-- C9: a served file of `n > 0` bytes goes out as exactly
`ceil(n / 16384)` frames whose `sliceNum` runs 0, 1, ... in order, each
frame carrying `totalSliceNum = ceil(n / 16384)` and `totalLength = n`;
base64-decoding every frame's payload and concatenating in slice order
restores exactly the file bytes, and the decoded chunk lengths sum to
`totalLength`. -/
theorem sendFileData_chunk_roundtrip (requestID : String) (data : List Nat)
    (fileName : String) (hpos : 0 < data.length)
    (hbytes : ∀ b ∈ data, b < 256) :
    (sendFileData requestID data fileName).length =
      (data.length + ServerChunkSize - 1) / ServerChunkSize ∧
    ServerChunkSize * ((sendFileData requestID data fileName).length - 1) <
      data.length ∧
    data.length ≤ ServerChunkSize * (sendFileData requestID data fileName).length ∧
    (∀ i f, (sendFileData requestID data fileName).get? i = some f →
      f.sliceNum = i ∧
      f.totalSliceNum = (sendFileData requestID data fileName).length ∧
      f.totalLength = data.length) ∧
    ((sendFileData requestID data fileName).map
        (fun f => b64Decode f.payload)).flatten = data ∧
    ((sendFileData requestID data fileName).map
        (fun f => (b64Decode f.payload).length)).sum = data.length := by
  have hlen : (sendFileData requestID data fileName).length =
      (data.length + ServerChunkSize - 1) / ServerChunkSize := by
    unfold sendFileData
    rw [List.length_map, List.length_range]
  have hchunkmem : ∀ i, ∀ b ∈ chunkAt data i, b < 256 := by
    intro i b hbmem
    exact hbytes b (List.mem_of_mem_drop (List.mem_of_mem_take hbmem))
  have hdec : ∀ i, b64Decode (b64Encode (chunkAt data i)) = chunkAt data i := by
    intro i
    exact b64_roundtrip (chunkAt data i).length (chunkAt data i) le_rfl (hchunkmem i)
  have hmapdec : (sendFileData requestID data fileName).map
      (fun f => b64Decode f.payload) =
      (List.range ((data.length + ServerChunkSize - 1) / ServerChunkSize)).map
        (chunkAt data) := by
    unfold sendFileData
    rw [List.map_map]
    refine List.map_congr_left ?_
    intro i _
    by_cases ht :
        (endsWithL fileName.toList (".m3u8".toList) ||
          endsWithL fileName.toList (".vtt".toList)) = true
    · simp only [Function.comp, ht, if_true, DCFrame.payload]
      exact hdec i
    · rw [Bool.not_eq_true] at ht
      simp only [Function.comp, ht, Bool.false_eq_true, if_false, DCFrame.payload]
      exact hdec i
  have hflat : ((sendFileData requestID data fileName).map
      (fun f => b64Decode f.payload)).flatten = data := by
    rw [hmapdec]
    exact flatten_chunks data.length data le_rfl
  refine ⟨hlen, ?_, ?_, ?_, hflat, ?_⟩
  · rw [hlen, show ServerChunkSize = 16384 from rfl]
    omega
  · rw [hlen, show ServerChunkSize = 16384 from rfl]
    omega
  · intro i f hf
    unfold sendFileData at hf
    rw [List.get?_map] at hf
    cases hr : (List.range ((data.length + ServerChunkSize - 1) / ServerChunkSize)).get? i with
    | none =>
      rw [hr] at hf
      simp [Option.map_none'] at hf
    | some j =>
      rw [hr] at hf
      obtain ⟨hi, hj⟩ := List.get?_eq_some.mp hr
      rw [List.get_range] at hj
      subst hj
      simp only [Option.map_some', Option.some.injEq] at hf
      subst hf
      rw [hlen]
      constructor
      · split <;> rfl
      · constructor
        · split <;> rfl
        · split <;> rfl
  · have hcomp : (sendFileData requestID data fileName).map
        (fun f => (b64Decode f.payload).length) =
        ((sendFileData requestID data fileName).map
          (fun f => b64Decode f.payload)).map List.length := by
      rw [List.map_map]
      rfl
    rw [hcomp, ← List.length_flatten, hflat]

/-- Witness for C9 at the two-byte file `"Hi"` served as a playlist. -/
theorem sendFileData_chunk_roundtrip_witness :
    ((sendFileData "Q1" [72, 105] "index.m3u8").map
        (fun f => b64Decode f.payload)).flatten = [72, 105] ∧
    (sendFileData "Q1" [72, 105] "index.m3u8").length = 1 := by
  have h := sendFileData_chunk_roundtrip "Q1" [72, 105] "index.m3u8" (by decide) (by decide)
  exact ⟨h.2.2.2.2.1, by rw [h.1]; rfl⟩

end MagnetM3u8
